import Mathlib

/-!
Verification of the discovery-and-classification engine of an ASIC-miner
fleet management library.  The definitions below are a shallow embedding of
the Rust source under `src/`: vendor/firmware enumerations
(`src/data/device/mod.rs`), miner commands (`src/miners/commands.rs`),
the discovery/classification factory (`src/miners/factory/mod.rs` and
`src/miners/factory/traits.rs`), version-gated backend construction
(`src/miners/backends/btminer/mod.rs`, `src/miners/backends/espminer/mod.rs`)
and model parsing (`src/data/device/models/mod.rs`).
Network I/O is represented by explicitly-passed oracle functions; Rust
`panic!`/`unreachable!` is represented by the `PanicOr` result type.
-/

namespace AsicRs

/-- `MinerMake` from `src/data/device/mod.rs`: the closed set of known vendors. -/
inductive MinerMake where
  | AntMiner
  | WhatsMiner
  | AvalonMiner
  | EPic
  | Braiins
  | BitAxe
deriving DecidableEq, Repr

/-- `MinerFirmware` from `src/data/device/mod.rs`: the closed set of known firmware families. -/
inductive MinerFirmware where
  | Stock
  | BraiinsOS
  | VNish
  | EPic
  | HiveOS
  | LuxOS
  | Marathon
  | MSKMiner
deriving DecidableEq, Repr

/-- A `serde_json::Value`, as carried (optionally) by `MinerCommand` parameters
(`src/miners/commands.rs`).  The only operation the factory performs on a
parameter payload is the structural equality/hash used by `HashSet`
deduplication, so the value is represented by its canonical serialization
(serde_json's object map is an ordered `BTreeMap`, hence structurally equal
values have equal canonical serializations and conversely). -/
structure JsonValue where
  canonical : String
deriving DecidableEq, Repr

/-- `MinerCommand` from `src/miners/commands.rs`: an immutable, structurally
hashable description of one protocol-tagged device call. -/
inductive MinerCommand where
  | RPC (command : String) (parameters : Option JsonValue)
  | GRPC (service : String) (command : String) (request : Option JsonValue)
  | WebAPI (command : String) (parameters : Option JsonValue)
  | GraphQL (command : String)
  | SSH (command : String)
deriving DecidableEq, Repr

/-- A `semver::Version`.  Build metadata is ignored by requirement matching and
omitted; prerelease identifiers are kept as a list of strings (for the
requirements appearing in the source only their presence matters). -/
structure SemVer where
  major : Nat
  minor : Nat
  patch : Nat
  pre : List String
deriving DecidableEq, Repr

/-- Strict lexicographic order on version cores `(major, minor, patch)`. -/
def coreLtB (a1 a2 a3 b1 b2 b3 : Nat) : Bool :=
  Nat.blt a1 b1 || (a1 == b1 && (Nat.blt a2 b2 || (a2 == b2 && Nat.blt a3 b3)))

/-- Matching of the requirement `">=M.m.p"` by the Rust `semver` crate: the
comparator carries no prerelease tag, so a version with a prerelease never
matches; otherwise the version core must be `≥ (M, m, p)` lexicographically. -/
def semverReqGe (M m p : Nat) (v : SemVer) : Bool :=
  v.pre.isEmpty && !(coreLtB v.major v.minor v.patch M m p)

/-- Matching of the requirement `">=M1.m1.p1, <M2.m2.p2"` by the Rust `semver`
crate (both comparators without prerelease tags). -/
def semverReqGeLt (M1 m1 p1 M2 m2 p2 : Nat) (v : SemVer) : Bool :=
  v.pre.isEmpty && !(coreLtB v.major v.minor v.patch M1 m1 p1)
    && coreLtB v.major v.minor v.patch M2 m2 p2

/-- Result of a Rust computation that may `panic!`/`unreachable!` instead of
returning: `panicked msg` models a panic with the given message. -/
inductive PanicOr (α : Type) where
  | panicked (msg : String)
  | ret (a : α)
deriving DecidableEq, Repr

/-- `Option::map` lifted over a possibly-panicking computation. -/
def PanicOr.map {α β : Type} (f : α → β) : PanicOr α → PanicOr β
  | .panicked m => .panicked m
  | .ret a => .ret (f a)

/-- Carrier for the `AntMinerModel` enumeration (`src/data/device/models/antminer.rs`).
The exact closed set of hardware model names is irrelevant to the verified claims:
a model value is identified by its name, and which strings parse into one is left
universally quantified (see `FromStrOracles`). -/
structure AntMinerModel where
  name : String
deriving DecidableEq, Repr

/-- Carrier for `WhatsMinerModel` (see `AntMinerModel`). -/
structure WhatsMinerModel where
  name : String
deriving DecidableEq, Repr

/-- Carrier for `BraiinsModel` (see `AntMinerModel`). -/
structure BraiinsModel where
  name : String
deriving DecidableEq, Repr

/-- Carrier for `BitaxeModel` (see `AntMinerModel`). -/
structure BitaxeModel where
  name : String
deriving DecidableEq, Repr

/-- Carrier for `AvalonMinerModel` (see `AntMinerModel`). -/
structure AvalonMinerModel where
  name : String
deriving DecidableEq, Repr

/-- Carrier for `EPicModel` (see `AntMinerModel`). -/
structure EPicModel where
  name : String
deriving DecidableEq, Repr

/-- `MinerModel` from `src/data/device/models/mod.rs`: a resolved hardware model,
tagged by its vendor family. -/
inductive MinerModel where
  | AntMiner (m : AntMinerModel)
  | WhatsMiner (m : WhatsMinerModel)
  | Braiins (m : BraiinsModel)
  | Bitaxe (m : BitaxeModel)
  | AvalonMiner (m : AvalonMinerModel)
  | EPic (m : EPicModel)
deriving DecidableEq, Repr

/-- `std::net::Ipv4Addr`: four octets (each octet is a `u8`; every constructor in
the embedded code supplies octet values `< 256`). -/
structure Ipv4Addr where
  a : Nat
  b : Nat
  c : Nat
  d : Nat
deriving DecidableEq, Repr

/-- `std::net::IpAddr`, restricted to the `V4` constructor actually produced by
the factory's address expansion. -/
inductive IpAddr where
  | V4 (addr : Ipv4Addr)
deriving DecidableEq, Repr

/-- The concrete `GetMinerData` backends the factory's dispatch can construct
(`BTMiner3` from `src/miners/backends/btminer/mod.rs`, `ESPMiner200` and
`ESPMiner290` from `src/miners/backends/espminer/mod.rs`), identified by their
construction data. -/
inductive Backend where
  | BTMiner3 (ip : IpAddr) (model : MinerModel) (firmware : MinerFirmware)
  | ESPMiner200 (ip : IpAddr) (model : MinerModel) (firmware : MinerFirmware)
  | ESPMiner290 (ip : IpAddr) (model : MinerModel) (firmware : MinerFirmware)
deriving DecidableEq, Repr

/-- `BTMiner::new` from `src/miners/backends/btminer/mod.rs`: versions matching
`">=2024.11.0"` construct a `BTMiner3`; any other version panics. -/
def BTMiner.new (ip : IpAddr) (model : MinerModel) (firmware : MinerFirmware)
    (version : SemVer) : PanicOr Backend :=
  if semverReqGe 2024 11 0 version then
    .ret (.BTMiner3 ip model firmware)
  else
    .panicked "Unsupported BTMiner version"

/-- `ESPMiner::new` from `src/miners/backends/espminer/mod.rs`: versions matching
`">=2.0.0, <2.9.0"` construct an `ESPMiner200`, versions matching `">=2.9.0"`
an `ESPMiner290`; any other version panics. -/
def ESPMiner.new (ip : IpAddr) (model : MinerModel) (firmware : MinerFirmware)
    (version : SemVer) : PanicOr Backend :=
  if semverReqGeLt 2 0 0 2 9 0 version then
    .ret (.ESPMiner200 ip model firmware)
  else if semverReqGe 2 9 0 version then
    .ret (.ESPMiner290 ip model firmware)
  else
    .panicked "Unsupported ESPMiner version"

/-- `select_backend` from `src/miners/factory/mod.rs` (lines 123–139).  The Rust
`?` operator on the `model`/`firmware`/`version` options returns `None` from the
whole function when one of them is unresolved. -/
def select_backend (ip : IpAddr) (make : Option MinerMake) (model : Option MinerModel)
    (firmware : Option MinerFirmware) (version : Option SemVer) :
    PanicOr (Option Backend) :=
  match make, firmware with
  | some .WhatsMiner, some .Stock =>
    -- the `firmware?` unwrap inside this arm necessarily yields `Stock`
    match model, version with
    | some m, some v => (BTMiner.new ip m .Stock v).map some
    | _, _ => .ret none
  | some .BitAxe, some .Stock =>
    match model, version with
    | some m, some v => (ESPMiner.new ip m .Stock v).map some
    | _, _ => .ret none
  | _, _ => .ret none

/-- Rust `str::to_uppercase` (its ASCII action, the only part the embedded
fingerprint patterns exercise), on the string's character list. -/
def toUpperChars (s : String) : List Char :=
  s.toList.map Char.toUpper

/-- Rust `str::contains(pat)` on an already-computed character list: `pat`
occurs contiguously in `s`. -/
def containsSubstr (s : List Char) (pat : String) : Bool :=
  decide (List.IsInfix pat.toList s)

/-- `parse_type_from_socket` from `src/miners/factory/mod.rs` (lines 64–86):
the argument is the serialized JSON payload (`response.to_string()`), which the
code uppercases before running the substring fingerprint rules in order. -/
def parse_type_from_socket (response : String) : Option (Option MinerMake × Option MinerFirmware) :=
  let json_string := toUpperChars response
  if containsSubstr json_string "BOSMINER" || containsSubstr json_string "BOSER" then
    some (none, some .BraiinsOS)
  else if containsSubstr json_string "LUXMINER" then
    some (none, some .LuxOS)
  else if containsSubstr json_string "BITMICRO" || containsSubstr json_string "BTMINER" then
    some (some .WhatsMiner, some .Stock)
  else if containsSubstr json_string "ANTMINER" && !containsSubstr json_string "DEVDETAILS" then
    some (some .AntMiner, some .Stock)
  else if containsSubstr json_string "AVALON" then
    some (some .AvalonMiner, some .Stock)
  else if containsSubstr json_string "VNISH" then
    some (none, some .VNish)
  else
    none

/-- A classification result: (optional vendor, optional firmware family). -/
abbrev Classification := Option MinerMake × Option MinerFirmware

/-- One case-insensitive fingerprint rule of the socket classifier, spec-side:
a predicate on the serialized payload together with the classification the rule
yields. -/
structure SocketRule where
  applies : String → Bool
  result : Classification

/-- The claim's fixed priority list of socket fingerprint rules:
BOSMINER/BOSER, then LUXMINER, then BITMICRO/BTMINER, then
ANTMINER-and-not-DEVDETAILS, then AVALON, then VNISH.  Each test is
case-insensitive (performed on the uppercased payload). -/
def socketRules : List SocketRule :=
  [ ⟨fun p => containsSubstr (toUpperChars p) "BOSMINER"
        || containsSubstr (toUpperChars p) "BOSER",
      (none, some .BraiinsOS)⟩,
    ⟨fun p => containsSubstr (toUpperChars p) "LUXMINER", (none, some .LuxOS)⟩,
    ⟨fun p => containsSubstr (toUpperChars p) "BITMICRO"
        || containsSubstr (toUpperChars p) "BTMINER",
      (some .WhatsMiner, some .Stock)⟩,
    ⟨fun p => containsSubstr (toUpperChars p) "ANTMINER"
        && !containsSubstr (toUpperChars p) "DEVDETAILS",
      (some .AntMiner, some .Stock)⟩,
    ⟨fun p => containsSubstr (toUpperChars p) "AVALON", (some .AvalonMiner, some .Stock)⟩,
    ⟨fun p => containsSubstr (toUpperChars p) "VNISH", (none, some .VNish)⟩ ]

/-- First-match semantics over a rule list: the result of the earliest rule
whose test accepts the payload, if any. -/
def firstMatchingRule (rules : List SocketRule) (payload : String) : Option Classification :=
  (rules.find? (fun r => r.applies payload)).map SocketRule.result

/-- Outcome of awaiting one spawned discovery task (`JoinSet::join_next` in
`MinerFactory::get_miner`): either the join failed (`Err(JoinError)`), or the
task completed with `get_miner_type_from_command`'s optional classification. -/
inductive TaskOutcome where
  | joinFailed
  | completed (result : Option Classification)
deriving DecidableEq, Repr

/-- The collection loop spawned by `MinerFactory::get_miner` (lines 194–206),
as a function of the completion order of the discovery tasks: it repeatedly
awaits the next finished task, returns the first non-empty classification,
skips join failures and empty completions, and returns `none` once the set is
drained. -/
def race_loop : List TaskOutcome → Option Classification
  | [] => none
  | .joinFailed :: rest => race_loop rest
  | .completed none :: rest => race_loop rest
  | .completed (some r) :: _ => some r

/-- A task outcome's positive classification, if any (the spec's "task that
produces a non-empty classification"). -/
def positiveResult : TaskOutcome → Option Classification
  | .completed (some r) => some r
  | _ => none

/-- Which branch of the `tokio::select!` in `MinerFactory::get_miner`
(lines 210–217) fires: the race task finished with its `miner_info` before the
discovery timeout (`raceDone`), or the timeout sleep elapsed first
(`timedOut`).  When every probe hangs past the timeout, only the `timedOut`
branch can fire; real-time behavior is abstracted into this choice. -/
inductive SelectOutcome where
  | raceDone (info : Option Classification)
  | timedOut
deriving DecidableEq

/-- The `ModelSelection`/`VersionSelection` trait methods
(`src/miners/factory/traits.rs`): vendor-specific network round-trips resolving
hardware model and firmware version, supplied as oracles. -/
structure ResolverOracles where
  makeModel : MinerMake → IpAddr → Option MinerModel
  firmwareModel : MinerFirmware → IpAddr → Option MinerModel
  makeVersion : MinerMake → IpAddr → Option SemVer
  firmwareVersion : MinerFirmware → IpAddr → Option SemVer

/-- `MinerFactory::get_miner` after the probe tasks have been spawned
(lines 193–239 of `src/miners/factory/mod.rs`): the select between the race
and the timeout, then model resolution (make first, else firmware, else return
`Ok(None)`), version resolution likewise, and backend dispatch. -/
def get_miner_result (ip : IpAddr) (sel : SelectOutcome) (res : ResolverOracles) :
    PanicOr (Option Backend) :=
  let miner_info : Option Classification :=
    match sel with
    | .raceDone info => info
    | .timedOut => none
  match miner_info with
  | some (make, firmware) =>
    match make, firmware with
    | none, none => .ret none
    | _, _ =>
      let model :=
        match make with
        | some m => res.makeModel m ip
        | none =>
          match firmware with
          | some f => res.firmwareModel f ip
          | none => none
      let version :=
        match make with
        | some m => res.makeVersion m ip
        | none =>
          match firmware with
          | some f => res.firmwareVersion f ip
          | none => none
      select_backend ip make model firmware version
  | none => .ret none

/-- Modelled from the spec: `RPC_VERSION` from `src/miners/factory/commands.rs`,
a file missing from `src/` (only its importers are present).  Spec §6 names it
"a generic RPC `version` query"; it carries no parameters. -/
def RPC_VERSION : MinerCommand := .RPC "version" none

/-- Modelled from the spec: `RPC_DEVDETAILS` from the missing
`src/miners/factory/commands.rs` — the WhatsMiner RPC `devdetails` discovery
query, no parameters. -/
def RPC_DEVDETAILS : MinerCommand := .RPC "devdetails" none

/-- Modelled from the spec: `HTTP_WEB_ROOT` from the missing
`src/miners/factory/commands.rs` — spec §6's "an HTTP GET of the web root",
no parameters. -/
def HTTP_WEB_ROOT : MinerCommand := .WebAPI "/" none

/-- `DiscoveryCommands for MinerMake` (`src/miners/factory/traits.rs`,
lines 20–31). -/
def MinerMake.get_discovery_commands : MinerMake → List MinerCommand
  | .AntMiner => [RPC_VERSION, HTTP_WEB_ROOT]
  | .WhatsMiner => [RPC_DEVDETAILS, HTTP_WEB_ROOT]
  | .AvalonMiner => [RPC_VERSION, HTTP_WEB_ROOT]
  | .EPic => [HTTP_WEB_ROOT]
  | .Braiins => [RPC_VERSION, HTTP_WEB_ROOT]
  | .BitAxe => [HTTP_WEB_ROOT]

/-- `DiscoveryCommands for MinerFirmware` (`src/miners/factory/traits.rs`,
lines 32–45). -/
def MinerFirmware.get_discovery_commands : MinerFirmware → List MinerCommand
  | .Stock => []
  | .BraiinsOS => [RPC_VERSION, HTTP_WEB_ROOT]
  | .VNish => [HTTP_WEB_ROOT, RPC_VERSION]
  | .EPic => [HTTP_WEB_ROOT]
  | .HiveOS => []
  | .LuxOS => [HTTP_WEB_ROOT, RPC_VERSION]
  | .Marathon => []
  | .MSKMiner => []

/-- The default make search list of `MinerFactory::get_miner` (lines 157–164). -/
def defaultSearchMakes : List MinerMake :=
  [.AntMiner, .WhatsMiner, .AvalonMiner, .EPic, .Braiins, .BitAxe]

/-- The default firmware search list of `MinerFactory::get_miner`
(lines 165–174). -/
def defaultSearchFirmwares : List MinerFirmware :=
  [.Stock, .BraiinsOS, .VNish, .EPic, .HiveOS, .LuxOS, .Marathon, .MSKMiner]

/-- One `HashSet::insert`: the element is added only if not already present.
The Rust `HashSet` is modelled as a duplicate-free list in insertion order
(the real set's iteration order is arbitrary; claims about it are stated up to
membership and count). -/
def hashset_insert (s : List MinerCommand) (c : MinerCommand) : List MinerCommand :=
  if c ∈ s then s else s ++ [c]

/-- The deduplicated probe set built by `MinerFactory::get_miner`
(lines 175–186): every searched make's discovery commands, then every searched
firmware's, inserted into one `HashSet`; one probe task is spawned per
element. -/
def discovery_commands (makes : List MinerMake) (firmwares : List MinerFirmware) :
    List MinerCommand :=
  let s := makes.foldl (fun s m => m.get_discovery_commands.foldl hashset_insert s) []
  firmwares.foldl (fun s f => f.get_discovery_commands.foldl hashset_insert s) s

/-- `calculate_optimal_concurrency` from `src/miners/factory/mod.rs`
(lines 30–39). -/
def calculate_optimal_concurrency (ip_count : Nat) : Nat :=
  if ip_count ≤ 100 then 25
  else if ip_count ≤ 1000 then 50
  else if ip_count ≤ 5000 then 100
  else if ip_count ≤ 10000 then 150
  else 200

/-- The concurrency limit `MinerFactory::scan`/`scan_stream` actually use
(lines 401–405): the adaptive value when no explicit override was set
(`max_concurrent == 0`, the `MinerFactory::new` default), the override
otherwise. -/
def effective_concurrency (max_concurrent ip_count : Nat) : Nat :=
  if max_concurrent == 0 then calculate_optimal_concurrency ip_count else max_concurrent

/-- `MinerFactory::scan` (lines 394–415), as a function of a per-address
resolution oracle `resolve` standing for `get_miner`: each address's `Err`
outcome is discarded by `.ok()`, each `Ok(None)` is dropped by `filter_map`.
`buffer_unordered` yields results in completion order; the list returned here
is in address order, and the claims about it are stated up to membership. -/
def scan (resolve : IpAddr → Except String (Option Backend)) (ips : List IpAddr) :
    Except String (List Backend) :=
  if ips.isEmpty then
    .error "No IPs to scan. Use with_subnet, with_octets, or with_range to set IPs."
  else
    .ok ((ips.map (fun ip => (resolve ip).toOption.join)).filterMap id)

/-- Rust `str::parse::<u8>`: an optional leading `+`, then one or more ASCII
digits, value at most 255 (overflow is a parse error, not a wrap). -/
def parse_u8 (s : String) : Option Nat :=
  let chars := s.toList
  let digits :=
    match chars with
    | '+' :: rest => rest
    | l => l
  if digits.isEmpty then none
  else if digits.all Char.isDigit then
    let n := digits.foldl (fun acc c => acc * 10 + (c.toNat - '0'.toNat)) 0
    if n ≤ 255 then some n else none
  else none

/-- Rust `str::split(sep)` (single-character separator): the maximal
separator-free chunks, with empty chunks kept, as character lists. -/
def splitOnSep (sep : Char) : List Char → List (List Char)
  | [] => [[]]
  | c :: rest =>
    match splitOnSep sep rest with
    | [] => [[c]]
    | h :: t => if c = sep then [] :: h :: t else (c :: h) :: t

/-- `parse_octet_range` from `src/miners/factory/mod.rs` (lines 462–485):
either a single `u8` value, or `"start-end"` expanding to the inclusive range
(`(start..=end).collect()`, i.e. `List.range' start (end + 1 - start)`);
malformed input, unparsable octets, and `start > end` are errors. -/
def parse_octet_range (range_str : String) : Except String (List Nat) :=
  if range_str.toList.any (· == '-') then
    match splitOnSep '-' range_str.toList with
    | [a, b] =>
      match parse_u8 (String.mk a), parse_u8 (String.mk b) with
      | some start, some stop =>
        if start > stop then
          .error ("Invalid range: start > end in " ++ range_str)
        else
          .ok (List.range' start (stop + 1 - start))
      | _, _ => .error "invalid digit found in string"
    | _ => .error ("Invalid range format: " ++ range_str)
  else
    match parse_u8 range_str with
    | some v => .ok [v]
    | none => .error "invalid digit found in string"

/-- `generate_ips_from_ranges` (lines 488–507): four nested loops pushing every
octet combination — the cartesian product of the four ranges in loop order. -/
def generate_ips_from_ranges (r1 r2 r3 r4 : List Nat) : List IpAddr :=
  r1.flatMap fun o1 => r2.flatMap fun o2 => r3.flatMap fun o3 =>
    r4.map fun o4 => IpAddr.V4 ⟨o1, o2, o3, o4⟩

/-- `MinerFactory::generate_ips_from_octets` (lines 308–326): parse the four
octet-range strings, then expand their product. -/
def generate_ips_from_octets (o1 o2 o3 o4 : String) : Except String (List IpAddr) := do
  let r1 ← parse_octet_range o1
  let r2 ← parse_octet_range o2
  let r3 ← parse_octet_range o3
  let r4 ← parse_octet_range o4
  pure (generate_ips_from_ranges r1 r2 r3 r4)

/-- `ModelSelectionError` from `src/data/device/models/mod.rs`. -/
inductive ModelSelectionError where
  | UnknownModel (model : String)
  | NoModelResponse
  | UnexpectedModelResponse
deriving DecidableEq, Repr

/-- `MinerModelFactory` from `src/data/device/models/mod.rs` (lines 132–152). -/
structure MinerModelFactory where
  make : Option MinerMake
  firmware : Option MinerFirmware
deriving DecidableEq, Repr

/-- `MinerModelFactory::new`. -/
def MinerModelFactory.new : MinerModelFactory := ⟨none, none⟩

/-- `MinerModelFactory::with_make`. -/
def MinerModelFactory.with_make (f : MinerModelFactory) (make : MinerMake) :
    MinerModelFactory :=
  { f with make := some make }

/-- `MinerModelFactory::with_firmware`. -/
def MinerModelFactory.with_firmware (f : MinerModelFactory) (firmware : MinerFirmware) :
    MinerModelFactory :=
  { f with firmware := some firmware }

/-- The `FromStr` implementations of the six model enumerations
(`src/data/device/models/mod.rs`, serde-driven).  Which strings parse into
which hardware model is detail the claims do not depend on, so the six parsers
are supplied as oracles and universally quantified in the theorems. -/
structure FromStrOracles where
  antminer : String → Except ModelSelectionError AntMinerModel
  whatsminer : String → Except ModelSelectionError WhatsMinerModel
  braiins : String → Except ModelSelectionError BraiinsModel
  bitaxe : String → Except ModelSelectionError BitaxeModel
  avalon : String → Except ModelSelectionError AvalonMinerModel
  epic : String → Except ModelSelectionError EPicModel

/-- `MinerModelFactory::parse_model` (`src/data/device/models/mod.rs`,
lines 154–222), with its `unreachable!()` arms modelled as panics. -/
def parse_model (os : FromStrOracles) (f : MinerModelFactory) (model_str : String) :
    PanicOr (Except ModelSelectionError MinerModel) :=
  match f.make with
  | some .AntMiner => .ret ((os.antminer model_str).map MinerModel.AntMiner)
  | some .WhatsMiner => .ret ((os.whatsminer model_str).map MinerModel.WhatsMiner)
  | some .BitAxe => .ret ((os.bitaxe model_str).map MinerModel.Bitaxe)
  | some .AvalonMiner => .ret ((os.avalon model_str).map MinerModel.AvalonMiner)
  | none =>
    match f.firmware with
    | some .BraiinsOS =>
      match os.antminer model_str, os.braiins model_str with
      | .ok model, _ => .ret (.ok (MinerModel.AntMiner model))
      | _, .ok model => .ret (.ok (MinerModel.Braiins model))
      | .error am_err, _ => .ret (.error am_err)
    | some .EPic =>
      match os.antminer model_str, os.whatsminer model_str, os.epic model_str with
      | .ok model, _, _ => .ret (.ok (MinerModel.AntMiner model))
      | _, .ok model, _ => .ret (.ok (MinerModel.WhatsMiner model))
      | _, _, .ok model => .ret (.ok (MinerModel.EPic model))
      | .error am_err, _, _ => .ret (.error am_err)
    | some .LuxOS =>
      match os.antminer model_str with
      | .ok model => .ret (.ok (MinerModel.AntMiner model))
      | .error am_err => .ret (.error am_err)
    | some .Marathon =>
      match os.antminer model_str with
      | .ok model => .ret (.ok (MinerModel.AntMiner model))
      | .error am_err => .ret (.error am_err)
    | some .VNish =>
      match os.antminer model_str with
      | .ok model => .ret (.ok (MinerModel.AntMiner model))
      | .error am_err => .ret (.error am_err)
    | some .HiveOS =>
      match os.antminer model_str with
      | .ok model => .ret (.ok (MinerModel.AntMiner model))
      | .error am_err => .ret (.error am_err)
    | some .Stock => .panicked "internal error: entered unreachable code"
    -- The source match carries no `MSKMiner` arm at all (non-exhaustive as
    -- written); modelling the absent arm as a panic makes the no-panic theorem
    -- over the actual call sites strictly stronger.
    | some .MSKMiner => .panicked "internal error: entered unreachable code"
    | none => .panicked "internal error: entered unreachable code"
  | some .Braiins => .panicked "internal error: entered unreachable code"
  | some .EPic => .panicked "internal error: entered unreachable code"

/-- The `(make, firmware)` configurations with which the model resolvers of
`src/miners/factory/model/mod.rs` and `src/miners/factory/model/whatsminer.rs`
(the modules the factory actually declares) invoke
`MinerModelFactory::parse_model`: `get_model_vnish` and `get_model_antminer`
use make `AntMiner`; `get_model_whatsminer_v2`, its `_web` fallback and
`get_model_whatsminer_v3` use make `WhatsMiner`; `get_model_bitaxe` make
`BitAxe`; `get_model_avalonminer` make `AvalonMiner`; `get_model_epic`
firmware `EPic`; `get_model_luxos` firmware `LuxOS`; `get_model_braiins_os`
firmware `BraiinsOS`; `get_model_marathon` firmware `Marathon`. -/
def call_site_factories : List MinerModelFactory :=
  [ MinerModelFactory.new.with_make .AntMiner,
    MinerModelFactory.new.with_make .WhatsMiner,
    MinerModelFactory.new.with_make .BitAxe,
    MinerModelFactory.new.with_make .AvalonMiner,
    MinerModelFactory.new.with_firmware .EPic,
    MinerModelFactory.new.with_firmware .LuxOS,
    MinerModelFactory.new.with_firmware .BraiinsOS,
    MinerModelFactory.new.with_firmware .Marathon ]

/-- Concrete model/version resolver oracles used to instantiate witness
statements: every parser rejects its input. -/
def witnessOracles : FromStrOracles :=
  ⟨fun s => .error (.UnknownModel s), fun s => .error (.UnknownModel s),
   fun s => .error (.UnknownModel s), fun s => .error (.UnknownModel s),
   fun s => .error (.UnknownModel s), fun s => .error (.UnknownModel s)⟩

/-- Concrete address list used to instantiate the scan witness. -/
def scanWitnessIps : List IpAddr :=
  [.V4 ⟨10, 0, 0, 1⟩, .V4 ⟨10, 0, 0, 2⟩, .V4 ⟨10, 0, 0, 3⟩]

/-- Concrete backend used to instantiate the scan witness. -/
def scanWitnessBackend : Backend :=
  .BTMiner3 (.V4 ⟨10, 0, 0, 2⟩) (.WhatsMiner ⟨"M30S"⟩) .Stock

/-- Concrete resolution oracle for the scan witness: the first address fails to
resolve, the second resolves to a device, the third resolves to nothing. -/
def scanWitnessResolve : IpAddr → Except String (Option Backend) :=
  fun ip =>
    if ip = .V4 ⟨10, 0, 0, 1⟩ then .error "connection refused"
    else if ip = .V4 ⟨10, 0, 0, 2⟩ then .ok (some scanWitnessBackend)
    else .ok none

end AsicRs

namespace AsicRs

/-- C3 counterexample: the computed adaptive concurrency limit for 5000
addresses is 100 (the `1001..=5000` arm), not the claimed 150, so the claimed
quadruple of values is false as stated. -/
theorem calculate_optimal_concurrency_5000_not_150 :
    ¬ (calculate_optimal_concurrency 50 = 25 ∧ calculate_optimal_concurrency 500 = 50 ∧
       calculate_optimal_concurrency 5000 = 150 ∧ calculate_optimal_concurrency 50000 = 200) := by
  decide

/-- C3 amended: absent an explicit override (`max_concurrent = 0`), the
effective concurrency limit for address counts 50, 500, 5000 and 50000 is
25, 50, 100 and 200 respectively. -/
theorem adaptive_concurrency_breakpoints :
    effective_concurrency 0 50 = 25 ∧ effective_concurrency 0 500 = 50 ∧
    effective_concurrency 0 5000 = 100 ∧ effective_concurrency 0 50000 = 200 := by
  decide

/-- C6: if the discovery timeout elapses before the probe race produces a
positive match (`tokio::select!` takes the timeout branch), `get_miner` yields
no classification: it returns `Ok(None)` without invoking any model or version
resolver (the resolver oracles are universally quantified) and without
panicking. -/
theorem get_miner_timeout_yields_none :
    ∀ (ip : IpAddr) (res : ResolverOracles),
      get_miner_result ip SelectOutcome.timedOut res = PanicOr.ret none := by
  intro ip res
  rfl

/-- C4: socket-response fingerprinting is a pure function of the serialized
payload equal, on every payload, to first-match evaluation of the fixed
priority rule list (BOSMINER/BOSER ⇒ BraiinsOS, LUXMINER ⇒ LuxOS,
BITMICRO/BTMINER ⇒ WhatsMiner stock, ANTMINER-and-not-DEVDETAILS ⇒ AntMiner
stock, AVALON ⇒ AvalonMiner stock, VNISH ⇒ VNish, else no match); `List.find?`
returns the earliest rule whose case-insensitive substring test matches, so
whenever several rules match, the earliest one's result is produced. -/
theorem socket_fingerprint_is_first_match :
    ∀ payload, parse_type_from_socket payload = firstMatchingRule socketRules payload := by
  intro p
  unfold parse_type_from_socket firstMatchingRule socketRules
  cases h1 : containsSubstr (toUpperChars p) "BOSMINER" <;>
  cases h2 : containsSubstr (toUpperChars p) "BOSER" <;>
  cases h3 : containsSubstr (toUpperChars p) "LUXMINER" <;>
  cases h4 : containsSubstr (toUpperChars p) "BITMICRO" <;>
  cases h5 : containsSubstr (toUpperChars p) "BTMINER" <;>
  cases h6 : containsSubstr (toUpperChars p) "ANTMINER" <;>
  cases h7 : containsSubstr (toUpperChars p) "DEVDETAILS" <;>
  cases h8 : containsSubstr (toUpperChars p) "AVALON" <;>
  cases h9 : containsSubstr (toUpperChars p) "VNISH" <;>
  simp [List.find?, h1, h2, h3, h4, h5, h6, h7, h8, h9]

/-- C5: for every completion order of the probe tasks, the discovery race loop
returns the classification of the first task outcome carrying a non-empty
classification (`List.findSome?` of `positiveResult` over the completion
order); outcomes that completed with no match or failed to join are skipped —
a positive completion preceded by any number of such outcomes still wins the
race. -/
theorem race_returns_first_positive :
    (∀ outcomes, race_loop outcomes = outcomes.findSome? positiveResult) ∧
    (∀ pre r post, (∀ o ∈ pre, positiveResult o = none) →
      race_loop (pre ++ TaskOutcome.completed (some r) :: post) = some r) := by
  constructor
  · intro outcomes
    induction outcomes with
    | nil => rfl
    | cons o rest ih =>
      cases o with
      | joinFailed => simpa [race_loop, positiveResult, List.findSome?_cons] using ih
      | completed r =>
        cases r with
        | none => simpa [race_loop, positiveResult, List.findSome?_cons] using ih
        | some c => simp [race_loop, positiveResult, List.findSome?_cons]
  · intro pre r post
    induction pre with
    | nil => intro _; rfl
    | cons o t ih =>
      intro h
      cases o with
      | joinFailed =>
        simpa [race_loop] using ih (fun x hx => h x (List.mem_cons_of_mem _ hx))
      | completed rr =>
        cases rr with
        | none =>
          simpa [race_loop] using ih (fun x hx => h x (List.mem_cons_of_mem _ hx))
        | some c =>
          have ho := h _ (List.mem_cons_self _ _)
          simp [positiveResult] at ho

/-- C5 witness: in a concrete completion order where a join failure and an
empty completion precede two positive completions, the race returns the first
positive classification. -/
theorem race_returns_first_positive_witness :
    race_loop [TaskOutcome.joinFailed, TaskOutcome.completed none,
        TaskOutcome.completed (some (some MinerMake.AntMiner, some MinerFirmware.Stock)),
        TaskOutcome.completed (some (none, some MinerFirmware.LuxOS))] =
      some (some MinerMake.AntMiner, some MinerFirmware.Stock) :=
  race_returns_first_positive.2 [.joinFailed, .completed none]
    (some .AntMiner, some .Stock)
    [.completed (some (none, some .LuxOS))] (by decide)

/-- Helper: every `(make, firmware)` combination other than
`(WhatsMiner, Stock)` and `(BitAxe, Stock)` takes `select_backend`'s catch-all
arm and yields `None`. -/
lemma select_backend_ret_none_of_not_supported :
    ∀ ip make model firmware version,
      ¬ ((make = some MinerMake.WhatsMiner ∨ make = some MinerMake.BitAxe) ∧
          firmware = some MinerFirmware.Stock) →
      select_backend ip make model firmware version = .ret none := by
  intro ip make model firmware version h
  rcases make with _ | mk <;> rcases firmware with _ | fw
  · rfl
  · cases fw <;> rfl
  · cases mk <;> rfl
  · cases mk <;> cases fw <;>
      first
        | rfl
        | exact absurd ⟨by simp, rfl⟩ h

/-- C1 counterexample: backend dispatch is not total — for a classified
`(WhatsMiner, Stock)` device with a resolved model and resolved version
`2024.10.0`, which lies outside the supported range `">=2024.11.0"`,
`select_backend` panics (`BTMiner::new`'s `panic!("Unsupported BTMiner
version")`) instead of returning `None`. -/
theorem select_backend_panics_on_unsupported_version :
    select_backend (IpAddr.V4 ⟨10, 0, 0, 1⟩) (some MinerMake.WhatsMiner)
        (some (MinerModel.WhatsMiner ⟨"M30S++"⟩)) (some MinerFirmware.Stock)
        (some ⟨2024, 10, 0, []⟩) = PanicOr.panicked "Unsupported BTMiner version" := by
  decide

/-- C1 amended: `select_backend` panics exactly when the classified identity is
`(WhatsMiner, Stock)` or `(BitAxe, Stock)` with a resolved model and a resolved
version lying outside every supported semantic-version range of that family
(`">=2024.11.0"` for BTMiner; `">=2.0.0, <2.9.0"` and `">=2.9.0"` for
ESPMiner); on every other input — unsupported make/firmware combinations,
unresolved model or version, or an in-range version — it returns a backend or
`None` without panicking. -/
theorem select_backend_total_except_unsupported_version :
    ∀ ip make model firmware version,
      (∃ msg, select_backend ip make model firmware version = .panicked msg) ↔
        (model.isSome = true ∧
          ∃ v, version = some v ∧
            ((make = some MinerMake.WhatsMiner ∧ firmware = some MinerFirmware.Stock ∧
                semverReqGe 2024 11 0 v = false) ∨
             (make = some MinerMake.BitAxe ∧ firmware = some MinerFirmware.Stock ∧
                semverReqGeLt 2 0 0 2 9 0 v = false ∧ semverReqGe 2 9 0 v = false))) := by
  intro ip make model firmware version
  constructor
  · rintro ⟨msg, hmsg⟩
    by_cases hsup : ((make = some MinerMake.WhatsMiner ∨ make = some MinerMake.BitAxe) ∧
        firmware = some MinerFirmware.Stock)
    · obtain ⟨hmk, rfl⟩ := hsup
      rcases model with _ | m
      · rcases hmk with rfl | rfl <;> rcases version with _ | v <;> simp [select_backend] at hmsg
      · rcases version with _ | v
        · rcases hmk with rfl | rfl <;> simp [select_backend] at hmsg
        · rcases hmk with rfl | rfl
          · cases hb : semverReqGe 2024 11 0 v
            · exact ⟨rfl, v, rfl, Or.inl ⟨rfl, rfl, hb⟩⟩
            · simp [select_backend, BTMiner.new, hb, PanicOr.map] at hmsg
          · cases hb1 : semverReqGeLt 2 0 0 2 9 0 v
            · cases hb2 : semverReqGe 2 9 0 v
              · exact ⟨rfl, v, rfl, Or.inr ⟨rfl, rfl, hb1, hb2⟩⟩
              · simp [select_backend, ESPMiner.new, hb1, hb2, PanicOr.map] at hmsg
            · simp [select_backend, ESPMiner.new, hb1, PanicOr.map] at hmsg
    · rw [select_backend_ret_none_of_not_supported ip make model firmware version hsup] at hmsg
      exact absurd hmsg (by simp)
  · rintro ⟨hm, v, rfl, hc⟩
    obtain ⟨m, rfl⟩ := Option.isSome_iff_exists.mp hm
    rcases hc with ⟨rfl, rfl, hb⟩ | ⟨rfl, rfl, hb1, hb2⟩
    · exact ⟨"Unsupported BTMiner version",
        by simp [select_backend, BTMiner.new, hb, PanicOr.map]⟩
    · exact ⟨"Unsupported ESPMiner version",
        by simp [select_backend, ESPMiner.new, hb1, hb2, PanicOr.map]⟩

/-- C10: `select_backend` can return a constructed backend only when the
classified identity is `(WhatsMiner, Stock)` or `(BitAxe, Stock)` and both a
model and a version were resolved; for every other make/firmware combination —
AntMiner stock, AvalonMiner, Braiins/BraiinsOS, LuxOS, VNish, EPic, and all
partially-classified identities — it returns `None`, so resolution and
scanning can never yield a device of those families. -/
theorem backend_only_for_whatsminer_or_bitaxe_stock :
    ∀ ip make model firmware version,
      ((∃ b, select_backend ip make model firmware version = .ret (some b)) →
        (make = some MinerMake.WhatsMiner ∨ make = some MinerMake.BitAxe) ∧
        firmware = some MinerFirmware.Stock ∧ model.isSome = true ∧ version.isSome = true) ∧
      (¬ ((make = some MinerMake.WhatsMiner ∨ make = some MinerMake.BitAxe) ∧
          firmware = some MinerFirmware.Stock) →
        select_backend ip make model firmware version = .ret none) := by
  intro ip make model firmware version
  constructor
  · rintro ⟨b, hb⟩
    by_cases hsup : ((make = some MinerMake.WhatsMiner ∨ make = some MinerMake.BitAxe) ∧
        firmware = some MinerFirmware.Stock)
    · obtain ⟨hmk, rfl⟩ := hsup
      rcases model with _ | m
      · rcases hmk with rfl | rfl <;> rcases version with _ | v <;> simp [select_backend] at hb
      · rcases version with _ | v
        · rcases hmk with rfl | rfl <;> simp [select_backend] at hb
        · exact ⟨hmk, rfl, rfl, rfl⟩
    · rw [select_backend_ret_none_of_not_supported ip make model firmware version hsup] at hb
      simp at hb
  · exact select_backend_ret_none_of_not_supported ip make model firmware version

/-- C10 witness: a fully resolved AntMiner stock identity — which the
classifier can produce — dispatches to no backend. -/
theorem backend_only_for_whatsminer_or_bitaxe_stock_witness :
    select_backend (IpAddr.V4 ⟨10, 0, 0, 1⟩) (some MinerMake.AntMiner)
        (some (MinerModel.AntMiner ⟨"S19"⟩)) (some MinerFirmware.Stock) none = PanicOr.ret none :=
  (backend_only_for_whatsminer_or_bitaxe_stock _ _ _ _ _).2 (by decide)

/-- Helper: `.ok().flatten()` on a per-address resolution outcome produces a
device exactly when the resolution succeeded with a device. -/
lemma toOption_join_eq_some (e : Except String (Option Backend)) (b : Backend) :
    e.toOption.join = some b ↔ e = .ok (some b) := by
  cases e with
  | error err => simp [Except.toOption, Option.join]
  | ok o => cases o <;> simp [Except.toOption, Option.join]

/-- C2: for every non-empty configured address list and every per-address
resolution behavior, `scan` succeeds, and its result contains exactly the
devices of the addresses that resolved successfully — an address whose
resolution failed (or found nothing) is omitted without aborting the scan or
affecting any other address's device. -/
theorem scan_omits_failed_addresses :
    ∀ (resolve : IpAddr → Except String (Option Backend)) (ips : List IpAddr),
      ips.isEmpty = false →
      ∃ found, scan resolve ips = .ok found ∧
        ∀ b, b ∈ found ↔ ∃ ip ∈ ips, resolve ip = .ok (some b) := by
  intro resolve ips hne
  unfold scan
  simp only [hne, Bool.false_eq_true, if_false]
  refine ⟨_, rfl, ?_⟩
  intro b
  simp only [List.filterMap_map, List.mem_filterMap, Function.comp, id,
    toOption_join_eq_some]

/-- C2 witness: scanning three concrete addresses where the first fails to
resolve and the third resolves to nothing still returns the second address's
device. -/
theorem scan_omits_failed_addresses_witness :
    ∃ found, scan scanWitnessResolve scanWitnessIps = .ok found ∧
      ∀ b, b ∈ found ↔ ∃ ip ∈ scanWitnessIps, scanWitnessResolve ip = .ok (some b) :=
  scan_omits_failed_addresses scanWitnessResolve scanWitnessIps (by decide)

/-- Helper: membership in a `HashSet` after one insert. -/
lemma mem_hashset_insert (s : List MinerCommand) (c x : MinerCommand) :
    x ∈ hashset_insert s c ↔ x ∈ s ∨ x = c := by
  unfold hashset_insert
  split
  · rename_i hc
    constructor
    · exact Or.inl
    · rintro (h | rfl)
      · exact h
      · exact hc
  · simp [List.mem_append]

/-- Helper: inserting into a duplicate-free `HashSet` keeps it duplicate-free. -/
lemma nodup_hashset_insert (s : List MinerCommand) (c : MinerCommand) :
    s.Nodup → (hashset_insert s c).Nodup := by
  intro h
  unfold hashset_insert
  split
  · exact h
  · rename_i hc
    exact h.append (List.nodup_singleton c) (List.disjoint_singleton.mpr hc)

/-- Helper: membership after folding a command list into a `HashSet`. -/
lemma mem_foldl_insert (l : List MinerCommand) (init : List MinerCommand) (x : MinerCommand) :
    x ∈ l.foldl hashset_insert init ↔ x ∈ init ∨ x ∈ l := by
  induction l generalizing init with
  | nil => simp
  | cons c t ih =>
    simp only [List.foldl_cons, ih, mem_hashset_insert, List.mem_cons]
    tauto

/-- Helper: folding a command list into a duplicate-free `HashSet` keeps it
duplicate-free. -/
lemma nodup_foldl_insert (l : List MinerCommand) (init : List MinerCommand) :
    init.Nodup → (l.foldl hashset_insert init).Nodup := by
  induction l generalizing init with
  | nil => exact id
  | cons c t ih => exact fun h => ih _ (nodup_hashset_insert _ _ h)

/-- Helper: membership after folding each element's command list into a
`HashSet`. -/
lemma mem_foldl_insert_all {α : Type} (g : α → List MinerCommand) (l : List α)
    (init : List MinerCommand) (x : MinerCommand) :
    x ∈ l.foldl (fun s a => (g a).foldl hashset_insert s) init ↔
      x ∈ init ∨ ∃ a ∈ l, x ∈ g a := by
  induction l generalizing init with
  | nil => simp
  | cons c t ih =>
    simp only [List.foldl_cons, ih, mem_foldl_insert, List.mem_cons]
    constructor
    · rintro ((h | h) | ⟨a, ha, hg⟩)
      · exact Or.inl h
      · exact Or.inr ⟨c, Or.inl rfl, h⟩
      · exact Or.inr ⟨a, Or.inr ha, hg⟩
    · rintro (h | ⟨a, (rfl | ha), hg⟩)
      · exact Or.inl (Or.inl h)
      · exact Or.inl (Or.inr hg)
      · exact Or.inr ⟨a, ha, hg⟩

/-- Helper: nested fold of all discovery command lists preserves freedom from
duplicates. -/
lemma nodup_foldl_insert_all {α : Type} (g : α → List MinerCommand) (l : List α)
    (init : List MinerCommand) :
    init.Nodup → (l.foldl (fun s a => (g a).foldl hashset_insert s) init).Nodup := by
  induction l generalizing init with
  | nil => exact id
  | cons c t ih => exact fun h => ih _ (nodup_foldl_insert _ _ h)

/-- C7: for every searched make and firmware list, the probe set built by
`get_miner` is free of duplicates (one spawned task per distinct `Command`
under structural equality) and contains exactly the commands declared by some
searched make or firmware; in the default search, the RPC version query —
declared by AntMiner, AvalonMiner, Braiins, and BraiinsOS alike — occurs
exactly once. -/
theorem discovery_probe_set_deduplicated :
    (∀ makes firmwares, (discovery_commands makes firmwares).Nodup ∧
      (∀ c, c ∈ discovery_commands makes firmwares ↔
        ((∃ m ∈ makes, c ∈ m.get_discovery_commands) ∨
         (∃ f ∈ firmwares, c ∈ f.get_discovery_commands)))) ∧
    (discovery_commands defaultSearchMakes defaultSearchFirmwares).count RPC_VERSION = 1 ∧
    RPC_VERSION ∈ MinerMake.AntMiner.get_discovery_commands ∧
    RPC_VERSION ∈ MinerMake.AvalonMiner.get_discovery_commands ∧
    RPC_VERSION ∈ MinerMake.Braiins.get_discovery_commands ∧
    RPC_VERSION ∈ MinerFirmware.BraiinsOS.get_discovery_commands := by
  refine ⟨?_, by decide, by decide, by decide, by decide, by decide⟩
  intro makes firmwares
  constructor
  · exact nodup_foldl_insert_all _ _ _ (nodup_foldl_insert_all _ _ _ List.nodup_nil)
  · intro c
    simp only [discovery_commands, mem_foldl_insert_all, List.not_mem_nil, false_or]

/-- C9: for every `FromStr` behavior of the model enumerations and every model
string, `parse_model` invoked with any of the factory configurations actually
occurring at its call sites — make set to AntMiner, WhatsMiner, BitAxe or
AvalonMiner, or make unset with firmware set to the non-Stock EPic, LuxOS,
BraiinsOS or Marathon — returns a model or a `ModelSelectionError` and never
reaches an `unreachable!()` arm. -/
theorem parse_model_no_panic_at_call_sites :
    ∀ (os : FromStrOracles) (f : MinerModelFactory) (model_str : String),
      f ∈ call_site_factories →
      ∃ r, parse_model os f model_str = PanicOr.ret r := by
  intro os f s hf
  simp only [call_site_factories, List.mem_cons, List.not_mem_nil, or_false] at hf
  rcases hf with rfl | rfl | rfl | rfl | rfl | rfl | rfl | rfl
  · exact ⟨_, rfl⟩
  · exact ⟨_, rfl⟩
  · exact ⟨_, rfl⟩
  · exact ⟨_, rfl⟩
  · rcases h1 : os.antminer s with e1 | m1 <;> rcases h2 : os.whatsminer s with e2 | m2 <;>
      rcases h3 : os.epic s with e3 | m3 <;>
      simp [parse_model, MinerModelFactory.new, MinerModelFactory.with_firmware, h1, h2, h3]
  · rcases h1 : os.antminer s with e1 | m1 <;>
      simp [parse_model, MinerModelFactory.new, MinerModelFactory.with_firmware, h1]
  · rcases h1 : os.antminer s with e1 | m1 <;> rcases h2 : os.braiins s with e2 | m2 <;>
      simp [parse_model, MinerModelFactory.new, MinerModelFactory.with_firmware, h1, h2]
  · rcases h1 : os.antminer s with e1 | m1 <;>
      simp [parse_model, MinerModelFactory.new, MinerModelFactory.with_firmware, h1]

/-- C9 witness: the BraiinsOS resolver configuration parses a model string
without panicking even when every model parser rejects it. -/
theorem parse_model_no_panic_at_call_sites_witness :
    ∃ r, parse_model witnessOracles (MinerModelFactory.new.with_firmware MinerFirmware.BraiinsOS)
        "ANTMINER S19" = PanicOr.ret r :=
  parse_model_no_panic_at_call_sites witnessOracles _ "ANTMINER S19" (by decide)

/-- Helper: an address lies in the expansion of four octet ranges exactly when
each of its octets lies in the corresponding range (cartesian-product
membership). -/
lemma mem_generate_ips (r1 r2 r3 r4 : List Nat) (x : IpAddr) :
    x ∈ generate_ips_from_ranges r1 r2 r3 r4 ↔
      ∃ a b c d, a ∈ r1 ∧ b ∈ r2 ∧ c ∈ r3 ∧ d ∈ r4 ∧ x = IpAddr.V4 ⟨a, b, c, d⟩ := by
  simp only [generate_ips_from_ranges, List.mem_flatMap, List.mem_map]
  constructor
  · rintro ⟨a, ha, b, hb, c, hc, d, hd, rfl⟩
    exact ⟨a, b, c, d, ha, hb, hc, hd, rfl⟩
  · rintro ⟨a, b, c, d, ha, hb, hc, hd, rfl⟩
    exact ⟨a, ha, b, hb, c, hc, d, hd, rfl⟩

/-- Helper: the nested expansion loops compute the cartesian product of the
four ranges (as a `List` product mapped through address construction). -/
lemma generate_eq_product (r1 r2 r3 r4 : List Nat) :
    generate_ips_from_ranges r1 r2 r3 r4 =
      ((r1 ×ˢ r2 ×ˢ r3 ×ˢ r4).map fun p => IpAddr.V4 ⟨p.1, p.2.1, p.2.2.1, p.2.2.2⟩) := by
  simp only [generate_ips_from_ranges, SProd.sprod, List.product, List.map_flatMap,
    List.map_map]
  rfl

/-- Helper: expanding duplicate-free octet ranges yields a duplicate-free
address list. -/
lemma nodup_generate_ips (r1 r2 r3 r4 : List Nat)
    (h1 : r1.Nodup) (h2 : r2.Nodup) (h3 : r3.Nodup) (h4 : r4.Nodup) :
    (generate_ips_from_ranges r1 r2 r3 r4).Nodup := by
  rw [generate_eq_product]
  refine List.Nodup.map ?_ ((h1.product (h2.product (h3.product h4))))
  rintro ⟨a, b, c, d⟩ ⟨a', b', c', d'⟩ h
  simp only [IpAddr.V4.injEq, Ipv4Addr.mk.injEq] at h
  obtain ⟨rfl, rfl, rfl, rfl⟩ := h
  rfl

/-- C8: octet-range expansion is the cartesian product of the four resolved
ranges (an address is produced iff each octet lies in its range), and the
concrete expansion of `"192","168","1","1-255"` yields exactly 255 addresses,
pairwise distinct, each of the form `192.168.1.d` with `1 ≤ d ≤ 255`. -/
theorem octet_range_expansion :
    (∀ r1 r2 r3 r4 x, x ∈ generate_ips_from_ranges r1 r2 r3 r4 ↔
      ∃ a b c d, a ∈ r1 ∧ b ∈ r2 ∧ c ∈ r3 ∧ d ∈ r4 ∧ x = IpAddr.V4 ⟨a, b, c, d⟩) ∧
    (∃ ips, generate_ips_from_octets "192" "168" "1" "1-255" = .ok ips ∧
      ips.length = 255 ∧ ips.Nodup ∧
      (∀ x ∈ ips, ∃ d, 1 ≤ d ∧ d ≤ 255 ∧ x = IpAddr.V4 ⟨192, 168, 1, d⟩)) := by
  constructor
  · exact mem_generate_ips
  · refine ⟨generate_ips_from_ranges [192] [168] [1] (List.range' 1 255), rfl, ?_, ?_, ?_⟩
    · simp [generate_ips_from_ranges]
    · exact nodup_generate_ips _ _ _ _ (List.nodup_singleton _) (List.nodup_singleton _)
        (List.nodup_singleton _) (List.nodup_range' _ _)
    · intro x hx
      rw [mem_generate_ips] at hx
      obtain ⟨a, b, c, d, ha, hb, hc, hd, rfl⟩ := hx
      simp only [List.mem_singleton] at ha hb hc
      subst ha; subst hb; subst hc
      rw [List.mem_range'] at hd
      obtain ⟨i, hi, rfl⟩ := hd
      exact ⟨1 + 1 * i, by omega, by omega, rfl⟩

/-- C8 witness: `192.168.1.7` lies in the concrete expansion of the ranges
`[192] [168] [1] [1..255]`, by the cartesian-product membership
characterization instantiated at that address. -/
theorem octet_range_expansion_witness :
    IpAddr.V4 ⟨192, 168, 1, 7⟩ ∈ generate_ips_from_ranges [192] [168] [1] (List.range' 1 255) :=
  (octet_range_expansion.1 [192] [168] [1] (List.range' 1 255) _).mpr
    ⟨192, 168, 1, 7, by decide, by decide, by decide, by decide, rfl⟩

end AsicRs
